import Mathlib

/-!
Shallow embedding of the object-storage core of the Tut repository
(packages `api` and `db`, files `api/file.go`, `api/s3.go`, `api/bucket.go`,
`db` file repository) together with proofs of the specification claims.

Conventions:
* machine integers (`int64`) are modelled as `Int`; byte blobs as `List Nat`;
  timestamps as `Nat`;
* the filesystem is an association list from paths to blobs;
* the MD5 digest (`crypto/md5`, an external library) is a parameter
  `md5hex : Blob → String` of every operation that hashes content;
* fallible external effects that the claims talk about are injected as
  explicit outcome arguments: `copyFail : Option Nat` is the outcome of
  `io.Copy` (`none` = success, `some k` = failure after `k` bytes) and
  `metaOk : Bool` is the outcome of the metadata INSERT/UPDATE.
-/

namespace Tut

/-- Byte content of a stored object (`[]byte` stream). -/
abbrev Blob := List Nat

/-- The authenticated actor (`middleware` user); the core only uses its id. -/
structure User where
  id : Int
  deriving Repr, DecidableEq

/-- Embedding of `db.Bucket` (the fields the storage core reads). -/
structure Bucket where
  id : Int
  name : String
  userID : Int
  isPublic : Bool
  deriving Repr, DecidableEq

/-- Embedding of `db.File` from the file repository. -/
structure DbFile where
  id : Int
  bucketID : Int
  name : String
  path : String
  contentType : String
  size : Int
  etag : String
  userID : Int
  createdAt : Nat
  updatedAt : Nat
  deriving Repr, DecidableEq

/-- The whole observable state: bucket rows, file rows, the id sequence,
the filesystem, and the current clock (`time.Now` / `CURRENT_TIMESTAMP`). -/
structure Sys where
  buckets : List Bucket
  files : List DbFile
  nextFileID : Int
  disk : List (String × Blob)
  now : Nat
  deriving Repr, DecidableEq

/-! ### Filesystem model (`os.Create` + copy, `os.Remove`, reads) -/

/-- Model of `os.Create` followed by a full copy: create or truncate-and-replace. -/
def diskWrite : List (String × Blob) → String → Blob → List (String × Blob)
  | [], p, b => [(p, b)]
  | (q, c) :: rest, p, b =>
    if q = p then (p, b) :: rest else (q, c) :: diskWrite rest p b

/-- Model of `os.Remove`: drop the entry at the path (absence is not an error). -/
def diskRemove : List (String × Blob) → String → List (String × Blob)
  | [], _ => []
  | (q, c) :: rest, p =>
    if q = p then diskRemove rest p else (q, c) :: diskRemove rest p

/-- Reading a file from disk (`service.FileExists` + `os.Open` + copy). -/
def diskRead : List (String × Blob) → String → Option Blob
  | [], _ => none
  | (q, c) :: rest, p => if q = p then some c else diskRead rest p

theorem diskRead_diskWrite_self (d : List (String × Blob)) (p : String) (b : Blob) :
    diskRead (diskWrite d p b) p = some b := by
  induction d with
  | nil => simp [diskWrite, diskRead]
  | cons e rest ih =>
    obtain ⟨q, c⟩ := e
    by_cases h : q = p
    · simp [diskWrite, diskRead, h]
    · simp [diskWrite, diskRead, h, ih]

theorem diskRead_diskWrite_other (d : List (String × Blob)) (p q : String) (b : Blob)
    (h : q ≠ p) : diskRead (diskWrite d p b) q = diskRead d q := by
  induction d with
  | nil => simp [diskWrite, diskRead, Ne.symm h]
  | cons e rest ih =>
    obtain ⟨r, c⟩ := e
    by_cases hr : r = p
    · subst hr
      simp [diskWrite, diskRead, h, Ne.symm h]
    · by_cases hq : r = q <;> simp [diskWrite, diskRead, hr, hq, ih, h]

theorem diskRead_diskRemove_self (d : List (String × Blob)) (p : String) :
    diskRead (diskRemove d p) p = none := by
  induction d with
  | nil => simp [diskRemove, diskRead]
  | cons e rest ih =>
    obtain ⟨q, c⟩ := e
    by_cases h : q = p <;> simp [diskRemove, diskRead, h, ih]

theorem diskRead_diskRemove_other (d : List (String × Blob)) (p q : String)
    (h : q ≠ p) : diskRead (diskRemove d p) q = diskRead d q := by
  induction d with
  | nil => simp [diskRemove, diskRead]
  | cons e rest ih =>
    obtain ⟨r, c⟩ := e
    by_cases hr : r = p
    · subst hr
      simp [diskRemove, diskRead, Ne.symm h, ih]
    · by_cases hq : r = q <;> simp [diskRemove, diskRead, hr, hq, ih, h]

/-! ### Go `path/filepath` (Unix) — `Clean` and `Join`

`filepath.Join(elem...)` joins the non-empty elements with `/` and runs
`Clean` on the result.  `Clean` resolves `.` and `..` segments lexically.
This is the path arithmetic that `UploadFile` and `S3PutObject` apply to
the client-supplied key; the repository contains no other key validation. -/

/-- Split a string on `/` (own structural definition so that it reduces). -/
def splitSlashChars : List Char → List Char → List String
  | acc, [] => [String.mk acc.reverse]
  | acc, c :: rest =>
    if c = '/' then String.mk acc.reverse :: splitSlashChars [] rest
    else splitSlashChars (c :: acc) rest

def splitSlash (s : String) : List String := splitSlashChars [] s.data

/-- Join a list of segments with `/`. -/
def joinSlash : List String → String
  | [] => ""
  | [x] => x
  | x :: xs => x ++ "/" ++ joinSlash xs

/-- Does the path start with `/` (a rooted path)? -/
def isRooted (s : String) : Bool :=
  match s.data with
  | '/' :: _ => true
  | _ => false

/-- The element loop of Go `filepath.Clean`: `revOut` is the output built so
far, in reverse; `.` and empty segments are dropped; `..` pops the previous
segment when possible, is dropped at the root of a rooted path, and is kept
at the front of a relative path. -/
def cleanCore (rooted : Bool) : List String → List String → List String
  | revOut, [] => revOut.reverse
  | revOut, e :: rest =>
    if e = "" ∨ e = "." then cleanCore rooted revOut rest
    else if e = ".." then
      match revOut with
      | top :: revRest =>
        if top = ".." then
          if rooted then cleanCore rooted (top :: revRest) rest
          else cleanCore rooted (".." :: top :: revRest) rest
        else cleanCore rooted revRest rest
      | [] =>
        if rooted then cleanCore rooted [] rest
        else cleanCore rooted [".."] rest
    else cleanCore rooted (e :: revOut) rest

/-- Go `filepath.Clean` for Unix paths. -/
def filepathClean (p : String) : String :=
  if p = "" then "."
  else
    let rooted := isRooted p
    let segs := cleanCore rooted [] (splitSlash p)
    let body := joinSlash segs
    if rooted then (if body = "" then "/" else "/" ++ body)
    else (if body = "" then "." else body)

/-- Go `filepath.Join` for Unix paths: empty elements are ignored, the rest
are joined with `/` and cleaned; all elements empty gives `""`. -/
def filepathJoin (parts : List String) : String :=
  let ne := parts.filter (fun x => x ≠ "")
  if ne = [] then "" else filepathClean (joinSlash ne)

/-! ### SQL `LIKE` (the pattern match behind `ListByPrefix`) -/

/-- SQL `LIKE` matching with `%` (any run) and `_` (any one character) and
no ESCAPE clause, via a fuel argument so the definition is structural; the
fuel `p.length + s.length + 1` always suffices because every recursive call
shrinks `p.length + s.length`. -/
def likeMatchFuel : Nat → List Char → List Char → Bool
  | 0, _, _ => false
  | _ + 1, [], s => s.isEmpty
  | fuel + 1, p :: ps, s =>
    if p = '%' then
      likeMatchFuel fuel ps s ||
        (match s with
         | [] => false
         | _ :: s2 => likeMatchFuel fuel (p :: ps) s2)
    else if p = '_' then
      (match s with
       | [] => false
       | _ :: s2 => likeMatchFuel fuel ps s2)
    else
      (match s with
       | [] => false
       | c :: s2 => decide (p = c) && likeMatchFuel fuel ps s2)

def likeMatch (p s : List Char) : Bool := likeMatchFuel (p.length + s.length + 1) p s

/-- The repository's predicate: `name LIKE pre || '%'`. -/
def likePreMatch (pre name : String) : Bool :=
  likeMatch (pre.data ++ ['%']) name.data

/-- Literal left-anchored prefix test on strings (what the spec asks for). -/
def isPreOf : List Char → List Char → Bool
  | [], _ => true
  | _ :: _, [] => false
  | a :: p, c :: s => decide (a = c) && isPreOf p s

def startsWithLit (p s : String) : Bool := isPreOf p.data s.data

/-! ### `ORDER BY created_at DESC` -/

def insertDesc (a : DbFile) : List DbFile → List DbFile
  | [] => [a]
  | b :: l => if b.createdAt ≤ a.createdAt then a :: b :: l else b :: insertDesc a l

def sortDesc : List DbFile → List DbFile
  | [] => []
  | a :: l => insertDesc a (sortDesc l)

theorem mem_insertDesc {x a : DbFile} {l : List DbFile} :
    x ∈ insertDesc a l ↔ x = a ∨ x ∈ l := by
  induction l with
  | nil => simp [insertDesc]
  | cons b t ih =>
    by_cases h : b.createdAt ≤ a.createdAt
    · simp [insertDesc, h]
    · simp [insertDesc, h, ih]
      tauto

theorem mem_sortDesc {x : DbFile} {l : List DbFile} :
    x ∈ sortDesc l ↔ x ∈ l := by
  induction l with
  | nil => simp [sortDesc]
  | cons a t ih => simp [sortDesc, mem_insertDesc, ih]

theorem pairwise_insertDesc {a : DbFile} {l : List DbFile}
    (h : l.Pairwise (fun x y => y.createdAt ≤ x.createdAt)) :
    (insertDesc a l).Pairwise (fun x y => y.createdAt ≤ x.createdAt) := by
  induction l with
  | nil => simp [insertDesc]
  | cons b t ih =>
    rcases List.pairwise_cons.mp h with ⟨hb, ht⟩
    by_cases hba : b.createdAt ≤ a.createdAt
    · simp only [insertDesc, if_pos hba]
      refine List.pairwise_cons.mpr ⟨?_, h⟩
      intro x hx
      rcases List.mem_cons.mp hx with rfl | hx
      · exact hba
      · exact Nat.le_trans (hb x hx) hba
    · simp only [insertDesc, if_neg hba]
      refine List.pairwise_cons.mpr ⟨?_, ih ht⟩
      intro x hx
      rcases mem_insertDesc.mp hx with rfl | hx
      · exact Nat.le_of_not_le hba
      · exact hb x hx

theorem pairwise_sortDesc (l : List DbFile) :
    (sortDesc l).Pairwise (fun x y => y.createdAt ≤ x.createdAt) := by
  induction l with
  | nil => simp [sortDesc]
  | cons a t ih => exact pairwise_insertDesc ih

/-! ### FileRepository (from `db`, source file with the file repository) -/

/-- Embedding of `FileRepository.GetByID`: `SELECT ... WHERE id = ?`, `sql.ErrNoRows`
mapped to the `nil` sentinel. -/
def fileGetByID (s : Sys) (id : Int) : Option DbFile :=
  s.files.find? (fun f => f.id == id)

/-- Embedding of `FileRepository.GetByName`: `SELECT ... WHERE bucket_id = ? AND name = ?`. -/
def fileGetByName (s : Sys) (bucketID : Int) (name : String) : Option DbFile :=
  s.files.find? (fun f => f.bucketID == bucketID && f.name == name)

/-- Embedding of `FileRepository.Create`: INSERT of all client fields; `id` comes from the
id sequence (`LastInsertId`), `created_at`/`updated_at` from the schema
default `CURRENT_TIMESTAMP`.  Returns the new state and the new id. -/
def fileCreate (s : Sys) (f : DbFile) : Sys × Int :=
  let id := s.nextFileID
  ({ s with
      files := s.files ++ [{ f with id := id, createdAt := s.now, updatedAt := s.now }],
      nextFileID := id + 1 }, id)

/-- The row transformation of `FileRepository.Update`: the SET clause
applies to the row whose `id` matches, all other rows are untouched. -/
def updRow (now : Nat) (up f : DbFile) : DbFile :=
  if f.id = up.id then
    { f with name := up.name, path := up.path, contentType := up.contentType,
             size := up.size, etag := up.etag, updatedAt := now }
  else f

/-- Embedding of `FileRepository.Update`: `UPDATE files SET name, path, content_type,
size, etag, updated_at WHERE id = ?` — note that `bucket_id`, `user_id` and
`created_at` are left untouched. -/
def fileUpdate (s : Sys) (up : DbFile) : Sys :=
  { s with files := s.files.map (updRow s.now up) }

/-- Embedding of `FileRepository.Delete`: `DELETE FROM files WHERE id = ?`. -/
def fileDelete (s : Sys) (id : Int) : Sys :=
  { s with files := s.files.filter (fun f => f.id != id) }

/-- Embedding of `FileRepository.Count`: `SELECT COUNT(*) FROM files WHERE bucket_id = ?`. -/
def fileCount (s : Sys) (bucketID : Int) : Int :=
  ((s.files.filter (fun f => f.bucketID == bucketID)).length : Int)

/-- Embedding of `FileRepository.List`: bucket filter, `ORDER BY created_at DESC`,
`LIMIT ? OFFSET ?`. -/
def fileList (s : Sys) (bucketID : Int) (limit offset : Nat) : List DbFile :=
  ((sortDesc (s.files.filter (fun f => f.bucketID == bucketID))).drop offset).take limit

/-- Embedding of `FileRepository.ListByPrefix`: like `List` but with
`name LIKE ? || '%'` on the client-supplied pattern `pre`. -/
def fileListByPre (s : Sys) (bucketID : Int) (pre : String) (limit offset : Nat) :
    List DbFile :=
  ((sortDesc (s.files.filter
      (fun f => f.bucketID == bucketID && likePreMatch pre f.name))).drop offset).take limit

/-! ### BucketRepository (from `db`; its source file is bundled inside
`src/README.md`, after the document separator) -/

/-- Embedding of `BucketRepository.GetByID` (README bundle, line 97):
`SELECT ... FROM buckets WHERE id = ?`, with `sql.ErrNoRows` mapped to the
`nil` sentinel. -/
def bucketGetByID (s : Sys) (id : Int) : Option Bucket :=
  s.buckets.find? (fun b => b.id == id)

/-- Embedding of `BucketRepository.GetByName(name, userID)` (README bundle,
line 125): `SELECT ... FROM buckets WHERE name = ? AND user_id = ?` — the
lookup is scoped to the given owner id — with the `nil` sentinel for no
rows. -/
def bucketGetByName (s : Sys) (name : String) (userID : Int) : Option Bucket :=
  s.buckets.find? (fun b => b.name == name && b.userID == userID)

/-- Embedding of `BucketRepository.Delete` (README bundle, line 169):
`DELETE FROM buckets WHERE id = ?`. -/
def bucketDelete (s : Sys) (id : Int) : Sys :=
  { s with buckets := s.buckets.filter (fun b => b.id != id) }

/-! ### HTTP responses

One record covers both adapters: native handlers fill `errorMessage` /
`okFile` / `items` (the JSON body) while the S3 handlers mostly answer with
a bare status; `etagHeader` is the `ETag` response header, `body` the
streamed bytes of a download. -/

structure Resp where
  status : Nat
  errorMessage : Option String := none
  etagHeader : Option String := none
  body : Blob := []
  okFile : Option DbFile := none
  items : List DbFile := []
  deriving Repr, DecidableEq

/-- The physical path computed by both put handlers:
`filepath.Join(filepath.Join(storageBase, userID, bucketID), key)` — keyed
by the *uploading* actor's id. -/
def putPath (storageBase : String) (uid bucketID : Int) (key : String) : String :=
  filepathJoin [filepathJoin [storageBase, toString uid, toString bucketID], key]

/-! ### Native adapter (`api/file.go`, `api/bucket.go`) -/

/-- Embedding of `api.UploadFile` (file.go).  `u` is the authenticated actor, `fileName`
the multipart file name, `content` the uploaded bytes, `contentType0` the
`Content-Type` form header (may be empty).  `copyFail`/`metaOk` inject the
outcomes of `io.Copy` and of the metadata INSERT/UPDATE. -/
def uploadFile (md5hex : Blob → String) (storageBase : String) (u : User)
    (bucketID : Int) (fileName contentType0 : String) (content : Blob)
    (copyFail : Option Nat) (metaOk : Bool) (s : Sys) : Sys × Resp :=
  match bucketGetByID s bucketID with
  | none => (s, { status := 404, errorMessage := some "Bucket not found" })
  | some bucket =>
    if bucket.userID ≠ u.id ∧ bucket.isPublic = false then
      (s, { status := 403, errorMessage := some "Access denied" })
    else if fileName = "" then
      (s, { status := 400, errorMessage := some "Invalid file name" })
    else
      let existing := fileGetByName s bucketID fileName
      let filePath := putPath storageBase u.id bucketID fileName
      match copyFail with
      | some k =>
        let disk2 := diskRemove (diskWrite s.disk filePath (content.take k)) filePath
        ({ s with disk := disk2 },
         { status := 500, errorMessage := some "Failed to save file" })
      | none =>
        let s1 := { s with disk := diskWrite s.disk filePath content }
        let etag := md5hex content
        let ct := if contentType0 = "" then "application/octet-stream" else contentType0
        let base : DbFile :=
          { id := 0, bucketID := bucketID, name := fileName, path := filePath,
            contentType := ct, size := (content.length : Int), etag := etag,
            userID := u.id, createdAt := 0, updatedAt := 0 }
        match existing with
        | some e =>
          if metaOk then
            (fileUpdate s1 { base with id := e.id },
             { status := 200, okFile := some { base with id := e.id } })
          else
            ({ s1 with disk := diskRemove s1.disk filePath },
             { status := 500, errorMessage := some "Failed to save file metadata" })
        | none =>
          if metaOk then
            let created := fileCreate s1 base
            (created.1, { status := 200, okFile := some { base with id := created.2 } })
          else
            ({ s1 with disk := diskRemove s1.disk filePath },
             { status := 500, errorMessage := some "Failed to save file metadata" })

/-- Embedding of `api.ListFiles` (file.go).  `limit`/`offset` are the already-parsed
pagination values, `pre` the `prefix` query parameter (empty = unfiltered). -/
def listFiles (u : User) (bucketID : Int) (limit offset : Nat) (pre : String)
    (s : Sys) : Resp :=
  match bucketGetByID s bucketID with
  | none => { status := 404, errorMessage := some "Bucket not found" }
  | some bucket =>
    if bucket.userID ≠ u.id ∧ bucket.isPublic = false then
      { status := 403, errorMessage := some "Access denied" }
    else
      let files := if pre ≠ "" then fileListByPre s bucketID pre limit offset
                   else fileList s bucketID limit offset
      { status := 200, items := files }

/-- Embedding of `api.DownloadFile` (file.go). -/
def downloadFile (u : User) (bucketID fileID : Int) (s : Sys) : Resp :=
  match bucketGetByID s bucketID with
  | none => { status := 404, errorMessage := some "Bucket not found" }
  | some bucket =>
    if bucket.userID ≠ u.id ∧ bucket.isPublic = false then
      { status := 403, errorMessage := some "Access denied" }
    else
      match fileGetByID s fileID with
      | none => { status := 404, errorMessage := some "File not found" }
      | some f =>
        if f.bucketID ≠ bucketID then
          { status := 404, errorMessage := some "File not found" }
        else
          match diskRead s.disk f.path with
          | none => { status := 404, errorMessage := some "File not found on disk" }
          | some bytes => { status := 200, etagHeader := some f.etag, body := bytes }

/-- Embedding of `api.DeleteFile` (file.go): ownership required; disk removal is
best-effort and precedes the row deletion. -/
def deleteFile (u : User) (bucketID fileID : Int) (s : Sys) : Sys × Resp :=
  match bucketGetByID s bucketID with
  | none => (s, { status := 404, errorMessage := some "Bucket not found" })
  | some bucket =>
    if bucket.userID ≠ u.id then
      (s, { status := 403, errorMessage := some "Access denied" })
    else
      match fileGetByID s fileID with
      | none => (s, { status := 404, errorMessage := some "File not found" })
      | some f =>
        if f.bucketID ≠ bucketID then
          (s, { status := 404, errorMessage := some "File not found" })
        else
          let s1 := { s with disk := diskRemove s.disk f.path }
          (fileDelete s1 fileID, { status := 200 })

/-- Embedding of `api.GetBucket` (bucket.go). -/
def getBucket (u : User) (bucketID : Int) (s : Sys) : Resp :=
  match bucketGetByID s bucketID with
  | none => { status := 404, errorMessage := some "Bucket not found" }
  | some bucket =>
    if bucket.userID ≠ u.id ∧ bucket.isPublic = false then
      { status := 403, errorMessage := some "Access denied" }
    else { status := 200 }

/-- Embedding of `api.DeleteBucket` (bucket.go): ownership first, then the live
`fileRepo.Count` check, then the row deletion. -/
def deleteBucket (u : User) (bucketID : Int) (s : Sys) : Sys × Resp :=
  match bucketGetByID s bucketID with
  | none => (s, { status := 404, errorMessage := some "Bucket not found" })
  | some bucket =>
    if bucket.userID ≠ u.id then
      (s, { status := 403, errorMessage := some "Access denied" })
    else if fileCount s bucketID > 0 then
      (s, { status := 400,
            errorMessage := some "Cannot delete bucket with existing files" })
    else
      (bucketDelete s bucketID, { status := 200 })

/-! ### S3-compatible adapter (`api/s3.go`) -/

/-- Embedding of `api.S3PutObject` (s3.go).  `objectKey` is the already URL-decoded key.
The bucket lookup is `bucketRepo.GetByName(bucketName, user.ID)` — scoped to
the requesting actor.  The results of `fileRepo.Update`/`fileRepo.Create`
are discarded by the source, hence the response does not depend on
`metaOk`. -/
def s3PutObject (md5hex : Blob → String) (storageBase : String) (u : User)
    (bucketName objectKey contentType0 : String) (content : Blob)
    (copyFail : Option Nat) (metaOk : Bool) (s : Sys) : Sys × Resp :=
  if bucketName = "" ∨ objectKey = "" then (s, { status := 400 })
  else
    match bucketGetByName s bucketName u.id with
    | none => (s, { status := 404 })
    | some bucket =>
      if bucket.userID ≠ u.id ∧ bucket.isPublic = false then (s, { status := 403 })
      else
        let filePath := putPath storageBase u.id bucket.id objectKey
        match copyFail with
        | some k =>
          let disk2 := diskRemove (diskWrite s.disk filePath (content.take k)) filePath
          ({ s with disk := disk2 }, { status := 500 })
        | none =>
          let s1 := { s with disk := diskWrite s.disk filePath content }
          let etag := md5hex content
          let ct := if contentType0 = "" then "application/octet-stream" else contentType0
          let existing := fileGetByName s1 bucket.id objectKey
          let base : DbFile :=
            { id := 0, bucketID := bucket.id, name := objectKey, path := filePath,
              contentType := ct, size := (content.length : Int), etag := etag,
              userID := u.id, createdAt := 0, updatedAt := 0 }
          let s2 :=
            match existing with
            | some e => if metaOk then fileUpdate s1 { base with id := e.id } else s1
            | none => if metaOk then (fileCreate s1 base).1 else s1
          (s2, { status := 200, etagHeader := some ("\"" ++ etag ++ "\"") })

/-- Embedding of `api.S3GetObject` (s3.go). -/
def s3GetObject (u : User) (bucketName objectKey : String) (s : Sys) : Resp :=
  if bucketName = "" ∨ objectKey = "" then { status := 400 }
  else
    match bucketGetByName s bucketName u.id with
    | none => { status := 404 }
    | some bucket =>
      if bucket.userID ≠ u.id ∧ bucket.isPublic = false then { status := 403 }
      else
        match fileGetByName s bucket.id objectKey with
        | none => { status := 404 }
        | some f =>
          match diskRead s.disk f.path with
          | none => { status := 404 }
          | some bytes =>
            { status := 200, etagHeader := some ("\"" ++ f.etag ++ "\""), body := bytes }

/-- Embedding of `api.S3DeleteObject` (s3.go): ownership required; 204 whether or not the
key existed. -/
def s3DeleteObject (u : User) (bucketName objectKey : String) (s : Sys) : Sys × Resp :=
  if bucketName = "" ∨ objectKey = "" then (s, { status := 400 })
  else
    match bucketGetByName s bucketName u.id with
    | none => (s, { status := 404 })
    | some bucket =>
      if bucket.userID ≠ u.id then (s, { status := 403 })
      else
        match fileGetByName s bucket.id objectKey with
        | none => (s, { status := 204 })
        | some f =>
          let s1 := { s with disk := diskRemove s.disk f.path }
          (fileDelete s1 f.id, { status := 204 })

/-! ### Helper lemmas about the repositories -/

/-- Distinct primary keys: the well-formedness every state reached through
the repositories has, since ids come from one sequence. -/
def idsNodup (l : List DbFile) : Prop :=
  l.Pairwise (fun a b => a.id ≠ b.id)

theorem perm_pass {b : Bucket} {u : User} (h : b.userID = u.id ∨ b.isPublic = true) :
    ¬(b.userID ≠ u.id ∧ b.isPublic = false) := by
  rintro ⟨h1, h2⟩
  rcases h with h | h
  · exact h1 h
  · rw [h] at h2
    cases h2

theorem find?_append_single (l : List DbFile) (p : DbFile → Bool) (x : DbFile)
    (h : l.find? p = none) :
    (l ++ [x]).find? p = if p x then some x else none := by
  induction l with
  | nil =>
    by_cases hx : p x <;> simp [List.find?, hx]
  | cons a t ih =>
    rw [List.find?_eq_none] at h
    have ha : ¬ p a = true := h a (by simp)
    have ht : t.find? p = none := List.find?_eq_none.mpr fun g hg => h g (by simp [hg])
    simpa [List.find?_cons, ha] using ih ht

/-- After `fileUpdate` of the row found by a lookup, the same lookup finds
exactly the updated row (given distinct ids and that the updated row still
satisfies the lookup predicate). -/
theorem find?_map_updRow (l : List DbFile) (p : DbFile → Bool) (now : Nat)
    (up e : DbFile)
    (hfind : l.find? p = some e)
    (hnodup : idsNodup l)
    (hup : up.id = e.id)
    (hpe : p (updRow now up e) = true) :
    (l.map (updRow now up)).find? p = some (updRow now up e) := by
  induction l with
  | nil => simp [List.find?] at hfind
  | cons a t ih =>
    rcases List.pairwise_cons.mp hnodup with ⟨ha, ht⟩
    by_cases hpa : p a
    · rw [List.find?_cons_of_pos _ hpa] at hfind
      obtain rfl : a = e := by injection hfind
      rw [List.map_cons]
      exact List.find?_cons_of_pos _ hpe
    · rw [List.find?_cons_of_neg _ hpa] at hfind
      have hmem : e ∈ t := List.mem_of_find?_eq_some hfind
      have hae : a.id ≠ e.id := ha e hmem
      have haa : updRow now up a = a := by
        simp [updRow, hup, hae]
      rw [List.map_cons, haa, List.find?_cons_of_neg _ hpa]
      exact ih hfind ht

/-- Lemma: `fileUpdate` preserves the number of rows a Bool predicate selects, as
long as the update does not change the predicate's verdict on any row. -/
theorem length_filter_map_updRow (l : List DbFile) (p : DbFile → Bool) (now : Nat)
    (up : DbFile)
    (h : ∀ g ∈ l, p (updRow now up g) = p g) :
    ((l.map (updRow now up)).filter p).length = (l.filter p).length := by
  induction l with
  | nil => rfl
  | cons a t ih =>
    have ha := h a (by simp)
    have iht := ih fun g hg => h g (by simp [hg])
    by_cases hpa : p a
    · rw [List.map_cons, List.filter_cons, List.filter_cons]
      rw [ha] at *
      simp [hpa, iht]
    · rw [List.map_cons, List.filter_cons, List.filter_cons]
      rw [ha] at *
      simp [hpa, iht]

/-! ### Concrete scenarios used by the counterexamples and bug exhibits -/

/-- A concrete stand-in for the digest parameter. -/
def hashLen : Blob → String := fun b => "h" ++ toString b.length

/-- Owner 1 with one private bucket id 1 named `b`, empty store. -/
def sysC1 : Sys := ⟨[⟨1, "b", 1, false⟩], [], 1, [], 0⟩

def resC1 : Sys × Resp :=
  s3PutObject hashLen "storage" ⟨1⟩ "b" "../../../tmp/evil" "t" [1, 2, 3] none true sysC1

/-- C1: the claim says a key that after normalization escapes the bucket's
subtree is rejected with `InvalidKey` before any file is created and before
any metadata row is written.  The code has no such check: `S3PutObject`
joins the URL-decoded key onto the storage directory with `filepath.Join`,
so the key `../../../tmp/evil` (which contains `../`) is written to
`tmp/evil` — outside `storage/1/1` and even outside the storage base — a
metadata row is inserted, and the request answers 200. -/
theorem c1_s3_put_traversal_key_reaches_disk :
    resC1.2.status = 200 ∧
      diskRead resC1.1.disk "tmp/evil" = some [1, 2, 3] ∧
      startsWithLit "storage" "tmp/evil" = false ∧
      resC1.1.files =
        [⟨1, 1, "../../../tmp/evil", "tmp/evil", "t", 3, "h3", 1, 0, 0⟩] := by
  decide

/-- Owner 1 with a public bucket named `pub`; actor 2 is not the owner. -/
def sysC2 : Sys := ⟨[⟨1, "pub", 1, true⟩], [], 1, [], 0⟩

def resC2 : Sys × Resp :=
  s3PutObject hashLen "storage" ⟨2⟩ "pub" "k" "t" [7] none true sysC2

/-- C2 counterexample: on the S3 adapter the upload of actor 2 to owner 1's
*public* bucket does not pass the write check — the owner-scoped
`GetByName(bucketName, user.ID)` lookup returns the `nil` sentinel first,
so the request dies with 404 and the state is untouched, contradicting the
claim that the write permission check passes on both adapters. -/
theorem c2_s3_public_nonowner_put_not_found :
    resC2.2.status = 404 ∧ resC2.2.status ≠ 200 ∧ resC2.1 = sysC2 := by
  decide

/-- Owner 1, private bucket id 1 holding one file; actor 2 requests the
bucket deletion. -/
def sysC5 : Sys :=
  ⟨[⟨1, "b", 1, false⟩], [⟨1, 1, "k", "p", "t", 1, "e", 1, 0, 0⟩], 2, [("p", [0])], 0⟩

def resC5 : Sys × Resp := deleteBucket ⟨2⟩ 1 sysC5

/-- C5 counterexample: deleting a non-empty bucket does *not* fail with the
non-empty error for every actor — the ownership test runs first, so a
non-owner gets `403 Access denied` instead of the non-empty-bucket error. -/
theorem c5_nonowner_delete_gets_access_denied :
    fileCount sysC5 1 > 0 ∧
      resC5.2.errorMessage = some "Access denied" ∧
      resC5.2.errorMessage ≠ some "Cannot delete bucket with existing files" ∧
      resC5.2.status = 403 := by
  decide

def fileC6 : DbFile := ⟨1, 1, "abc", "p", "t", 1, "e", 1, 0, 0⟩

def sysC6 : Sys := ⟨[], [fileC6], 2, [], 0⟩

/-- C6 counterexample: `ListByPrefix` runs `name LIKE ? || '%'` on the raw
client pattern, so the SQL wildcard `_` is live: with pattern `a_c` the
listing returns the file whose key is `abc`, although `abc` does not start
with the literal string `a_c`. -/
theorem c6_like_wildcard_overmatch :
    fileListByPre sysC6 1 "a_c" 50 0 = [fileC6] ∧
      startsWithLit "a_c" "abc" = false := by
  decide

/-- Owner 1, private bucket id 1; actor 2 issues native get/list. -/
def sysC7 : Sys := ⟨[⟨1, "b", 1, false⟩], [], 1, [], 0⟩

/-- C7 counterexample: the native `GetBucket` and `ListFiles` answer `403
Access denied` — not `404` — for a non-owner of an existing private bucket,
so bucket existence leaks, contradicting the claim. -/
theorem c7_private_bucket_forbidden_not_notfound :
    (getBucket ⟨2⟩ 1 sysC7).status = 403 ∧
      (getBucket ⟨2⟩ 1 sysC7).status ≠ 404 ∧
      (getBucket ⟨2⟩ 1 sysC7).errorMessage = some "Access denied" ∧
      (listFiles ⟨2⟩ 1 50 0 "" sysC7).status = 403 ∧
      (listFiles ⟨2⟩ 1 50 0 "" sysC7).status ≠ 404 := by
  decide

/-- Owner 1 with private bucket id 1 named `b`, empty store. -/
def sysC8 : Sys := ⟨[⟨1, "b", 1, false⟩], [], 1, [], 0⟩

/-- S3 put by the owner where the metadata INSERT fails (`metaOk = false`). -/
def resC8s3 : Sys × Resp :=
  s3PutObject hashLen "storage" ⟨1⟩ "b" "k" "t" [9] none false sysC8

/-- The same failing put through the native adapter. -/
def resC8native : Sys × Resp :=
  uploadFile hashLen "storage" ⟨1⟩ 1 "k" "t" [9] none false sysC8

/-- C8: `S3PutObject` discards the errors of `fileRepo.Create` and
`fileRepo.Update`, so a put whose metadata insert fails still answers
`200 OK` with an ETag although no row was written — the storage error is
silently dropped.  The native adapter handles the same failure correctly
with a 500, which shows the intent the S3 path misses. -/
theorem c8_s3_meta_failure_returns_success :
    resC8s3.2.status = 200 ∧
      resC8s3.2.etagHeader = some "\"h1\"" ∧
      resC8s3.1.files = [] ∧
      resC8native.2.status = 500 ∧
      resC8native.2.errorMessage = some "Failed to save file metadata" := by
  decide

/-- Two rows of a duplicate-free table with the same id are the same row. -/
theorem eq_of_mem_ids {l : List DbFile} (h : idsNodup l) {g e : DbFile}
    (hg : g ∈ l) (he : e ∈ l) (hid : g.id = e.id) : g = e := by
  induction l with
  | nil => cases hg
  | cons a t ih =>
    rcases List.pairwise_cons.mp h with ⟨ha, ht⟩
    rcases List.mem_cons.mp hg with rfl | hg2
    · rcases List.mem_cons.mp he with rfl | he2
      · rfl
      · exact absurd hid (ha e he2)
    · rcases List.mem_cons.mp he with rfl | he2
      · exact absurd hid.symm (ha g hg2)
      · exact ih ht hg2 he2

/-- In a duplicate-free table, the lookup by a member's id finds exactly
that member. -/
theorem find?_id_of_mem {l : List DbFile} (h : idsNodup l) {e : DbFile} (he : e ∈ l) :
    l.find? (fun g => g.id == e.id) = some e := by
  induction l with
  | nil => cases he
  | cons a t ih =>
    rcases List.pairwise_cons.mp h with ⟨ha, ht⟩
    by_cases hae : a = e
    · subst hae
      rw [List.find?_cons_of_pos _ (by simp)]
    · have he2 : e ∈ t := by
        rcases List.mem_cons.mp he with rfl | h2
        · exact absurd rfl hae
        · exact h2
      have hane : a.id ≠ e.id := ha e he2
      rw [List.find?_cons_of_neg _ (by simp [hane]), ih ht he2]

/-- An actor who owns no bucket of the given name gets the `nil` sentinel
from the owner-scoped lookup. -/
theorem bucketGetByName_none (s : Sys) (name : String) (uid : Int)
    (h : ∀ b ∈ s.buckets, b.name = name → b.userID ≠ uid) :
    bucketGetByName s name uid = none := by
  apply List.find?_eq_none.mpr
  intro b hb
  simp only [Bool.and_eq_true, beq_iff_eq, not_and]
  intro hn
  exact h b hb hn

theorem bucketGetByID_bucketDelete (s : Sys) (id : Int) :
    bucketGetByID (bucketDelete s id) id = none := by
  apply List.find?_eq_none.mpr
  intro b hb
  have hmem := List.mem_filter.mp hb
  simpa [bne_iff_ne] using hmem.2

/-- C9: on either adapter, when the content copy fails mid-stream
(`copyFail = some k`: only a prefix of the body reached the destination),
the partially written destination file is removed (`os.Remove`) before the
error is surfaced: the response is 500, the destination path is absent from
disk, no other path is touched, and no metadata row was written. -/
theorem c9_copy_failure_cleanup
    (md5hex : Blob → String) (storageBase : String) (s : Sys)
    (u : User) (bucketID : Int) (b : Bucket) (fileName contentType0 : String)
    (content : Blob) (k : Nat) (metaOk : Bool)
    (hb : bucketGetByID s bucketID = some b)
    (hperm : b.userID = u.id ∨ b.isPublic = true)
    (hname : fileName ≠ "")
    (u2 : User) (bucketName objectKey contentType2 : String) (content2 : Blob)
    (k2 : Nat) (metaOk2 : Bool) (b2 : Bucket)
    (hbn : bucketGetByName s bucketName u2.id = some b2)
    (hbname : bucketName ≠ "") (hkey2 : objectKey ≠ "") :
    ((uploadFile md5hex storageBase u bucketID fileName contentType0 content
        (some k) metaOk s).2.status = 500 ∧
     diskRead (uploadFile md5hex storageBase u bucketID fileName contentType0 content
        (some k) metaOk s).1.disk (putPath storageBase u.id bucketID fileName) = none ∧
     (uploadFile md5hex storageBase u bucketID fileName contentType0 content
        (some k) metaOk s).1.files = s.files ∧
     (∀ q, q ≠ putPath storageBase u.id bucketID fileName →
       diskRead (uploadFile md5hex storageBase u bucketID fileName contentType0 content
          (some k) metaOk s).1.disk q = diskRead s.disk q)) ∧
    ((s3PutObject md5hex storageBase u2 bucketName objectKey contentType2 content2
        (some k2) metaOk2 s).2.status = 500 ∧
     diskRead (s3PutObject md5hex storageBase u2 bucketName objectKey contentType2 content2
        (some k2) metaOk2 s).1.disk (putPath storageBase u2.id b2.id objectKey) = none ∧
     (s3PutObject md5hex storageBase u2 bucketName objectKey contentType2 content2
        (some k2) metaOk2 s).1.files = s.files ∧
     (∀ q, q ≠ putPath storageBase u2.id b2.id objectKey →
       diskRead (s3PutObject md5hex storageBase u2 bucketName objectKey contentType2 content2
          (some k2) metaOk2 s).1.disk q = diskRead s.disk q)) := by
  have hp := perm_pass hperm
  have hbn2 : b2.userID = u2.id := by
    have := List.find?_some hbn
    simp only [Bool.and_eq_true, beq_iff_eq] at this
    exact this.2
  have hp2 : ¬(b2.userID ≠ u2.id ∧ b2.isPublic = false) := by
    rintro ⟨h1, _⟩
    exact h1 hbn2
  constructor
  · refine ⟨?_, ?_, ?_, ?_⟩
    · simp [uploadFile, hb, hp, hname]
    · simp only [uploadFile, hb]
      rw [if_neg hp, if_neg hname]
      exact diskRead_diskRemove_self _ _
    · simp [uploadFile, hb, hp, hname]
    · intro q hq
      simp only [uploadFile, hb]
      rw [if_neg hp, if_neg hname]
      show diskRead (diskRemove (diskWrite s.disk _ _) _) q = diskRead s.disk q
      rw [diskRead_diskRemove_other _ _ _ hq, diskRead_diskWrite_other _ _ _ _ hq]
  · refine ⟨?_, ?_, ?_, ?_⟩
    · simp [s3PutObject, hbn, hp2, hbname, hkey2]
    · simp only [s3PutObject, if_neg (by simp [hbname, hkey2] : ¬(bucketName = "" ∨ objectKey = "")), hbn]
      rw [if_neg hp2]
      exact diskRead_diskRemove_self _ _
    · simp [s3PutObject, hbn, hp2, hbname, hkey2]
    · intro q hq
      simp only [s3PutObject, if_neg (by simp [hbname, hkey2] : ¬(bucketName = "" ∨ objectKey = "")), hbn]
      rw [if_neg hp2]
      show diskRead (diskRemove (diskWrite s.disk _ _) _) q = diskRead s.disk q
      rw [diskRead_diskRemove_other _ _ _ hq, diskRead_diskWrite_other _ _ _ _ hq]

/-- State used by the C9 witness: owner 1, private bucket id 1 named `b`. -/
def sysW9 : Sys := ⟨[⟨1, "b", 1, false⟩], [], 1, [], 0⟩

theorem c9_copy_failure_cleanup_witness :
    (uploadFile hashLen "storage" ⟨1⟩ 1 "k" "t" [1, 2] (some 1) true sysW9).2.status = 500 ∧
      diskRead (uploadFile hashLen "storage" ⟨1⟩ 1 "k" "t" [1, 2] (some 1) true sysW9).1.disk
        (putPath "storage" 1 1 "k") = none ∧
      (uploadFile hashLen "storage" ⟨1⟩ 1 "k" "t" [1, 2] (some 1) true sysW9).1.files = sysW9.files ∧
      (s3PutObject hashLen "storage" ⟨1⟩ "b" "k2" "t" [3] (some 0) true sysW9).2.status = 500 ∧
      diskRead (s3PutObject hashLen "storage" ⟨1⟩ "b" "k2" "t" [3] (some 0) true sysW9).1.disk
        (putPath "storage" 1 1 "k2") = none ∧
      (s3PutObject hashLen "storage" ⟨1⟩ "b" "k2" "t" [3] (some 0) true sysW9).1.files = sysW9.files := by
  have h := c9_copy_failure_cleanup hashLen "storage" sysW9 ⟨1⟩ 1 ⟨1, "b", 1, false⟩ "k" "t"
    [1, 2] 1 true (by decide) (by decide) (by decide)
    ⟨1⟩ "b" "k2" "t" [3] 0 true ⟨1, "b", 1, false⟩ (by decide) (by decide) (by decide)
  exact ⟨h.1.1, h.1.2.1, h.1.2.2.1, h.2.1, h.2.2.1, h.2.2.2.1⟩

/-- C7 (amended): on the native adapter an existing private bucket resolves
as `403 Forbidden` — not `404 NotFound` — for a non-owner, on both get and
list; `404` arises only when the bucket id does not exist at all.  Bucket
existence is therefore leaked to non-owners, contrary to the claim. -/
theorem c7_private_bucket_resolution
    (s : Sys) (u : User) (bucketID bid2 : Int) (b : Bucket)
    (limit offset : Nat) (pre : String)
    (hb : bucketGetByID s bucketID = some b)
    (hno : b.userID ≠ u.id) (hpriv : b.isPublic = false)
    (habsent : bucketGetByID s bid2 = none) :
    (getBucket u bucketID s).status = 403 ∧
      (getBucket u bucketID s).errorMessage = some "Access denied" ∧
      (listFiles u bucketID limit offset pre s).status = 403 ∧
      (getBucket u bid2 s).status = 404 ∧
      (listFiles u bid2 limit offset pre s).status = 404 := by
  refine ⟨?_, ?_, ?_, ?_, ?_⟩ <;>
    simp [getBucket, listFiles, hb, habsent, hno, hpriv]

/-- State used by the C7 witness: owner 1's private bucket id 1; id 9 is
absent. -/
def sysW7 : Sys := ⟨[⟨1, "b", 1, false⟩], [], 1, [], 0⟩

theorem c7_private_bucket_resolution_witness :
    (getBucket ⟨2⟩ 1 sysW7).status = 403 ∧
      (getBucket ⟨2⟩ 1 sysW7).errorMessage = some "Access denied" ∧
      (listFiles ⟨2⟩ 1 10 0 "x" sysW7).status = 403 ∧
      (getBucket ⟨2⟩ 9 sysW7).status = 404 ∧
      (listFiles ⟨2⟩ 9 10 0 "x" sysW7).status = 404 :=
  c7_private_bucket_resolution sysW7 ⟨2⟩ 1 9 ⟨1, "b", 1, false⟩ 10 0 "x"
    (by decide) (by decide) (by decide) (by decide)

/-- C5 (amended): deleting a bucket that holds at least one object fails —
with the non-empty-bucket error for the owner, and with `403 Access denied`
for any other actor (the ownership test runs first) — and never mutates any
state; after all objects are gone the owner's delete succeeds, removes only
the bucket row, and touches neither the object table nor the disk (the
guard is a live `fileRepo.Count`, not a cascading delete). -/
theorem c5_delete_bucket_checks
    (s : Sys) (u : User) (bucketID : Int) (b : Bucket)
    (hb : bucketGetByID s bucketID = some b) :
    (fileCount s bucketID > 0 →
      400 ≤ (deleteBucket u bucketID s).2.status ∧
        (deleteBucket u bucketID s).2.errorMessage ≠ none ∧
        (deleteBucket u bucketID s).1 = s) ∧
    (u.id = b.userID → fileCount s bucketID > 0 →
      (deleteBucket u bucketID s).2.status = 400 ∧
        (deleteBucket u bucketID s).2.errorMessage =
          some "Cannot delete bucket with existing files") ∧
    (u.id = b.userID → fileCount s bucketID = 0 →
      (deleteBucket u bucketID s).2.status = 200 ∧
        (deleteBucket u bucketID s).1.files = s.files ∧
        (deleteBucket u bucketID s).1.disk = s.disk ∧
        bucketGetByID (deleteBucket u bucketID s).1 bucketID = none) := by
  refine ⟨?_, ?_, ?_⟩
  · intro hcount
    by_cases howner : b.userID ≠ u.id
    · simp only [deleteBucket, hb]
      rw [if_pos howner]
      simp
    · simp only [deleteBucket, hb]
      rw [if_neg howner, if_pos hcount]
      simp
  · intro howner hcount
    have hne : ¬ b.userID ≠ u.id := by simp [howner.symm]
    simp only [deleteBucket, hb]
    rw [if_neg hne, if_pos hcount]
    simp
  · intro howner hcount
    have hne : ¬ b.userID ≠ u.id := by simp [howner.symm]
    have hnc : ¬ fileCount s bucketID > 0 := by simp [hcount]
    simp only [deleteBucket, hb]
    rw [if_neg hne, if_neg hnc]
    exact ⟨rfl, rfl, rfl, bucketGetByID_bucketDelete s bucketID⟩

/-- State used by the C5 witness: owner 1's bucket id 1 holding no files. -/
def sysW5 : Sys := ⟨[⟨1, "b", 1, false⟩], [], 1, [], 0⟩

theorem c5_delete_bucket_checks_witness :
    ((deleteBucket ⟨1⟩ 1 sysW5).2.status = 200 ∧
      (deleteBucket ⟨1⟩ 1 sysW5).1.files = sysW5.files ∧
      (deleteBucket ⟨1⟩ 1 sysW5).1.disk = sysW5.disk ∧
      bucketGetByID (deleteBucket ⟨1⟩ 1 sysW5).1 1 = none) ∧
    (fileCount sysC5 1 > 0 →
      400 ≤ (deleteBucket ⟨1⟩ 1 sysC5).2.status ∧
        (deleteBucket ⟨1⟩ 1 sysC5).2.errorMessage ≠ none ∧
        (deleteBucket ⟨1⟩ 1 sysC5).1 = sysC5) := by
  constructor
  · exact (c5_delete_bucket_checks sysW5 ⟨1⟩ 1 ⟨1, "b", 1, false⟩
      (by decide)).2.2 (by decide) (by decide)
  · exact (c5_delete_bucket_checks sysC5 ⟨1⟩ 1 ⟨1, "b", 1, false⟩ (by decide)).1

/-- C2 (amended): on the native adapter a public bucket is readable and
writable by an authenticated non-owner while object deletion stays
owner-only; on the S3 adapter, however, the bucket name lookup
`GetByName(bucketName, user.ID)` is scoped to the requesting actor, so an
actor who owns no bucket of that name gets `404` for put/get/delete on
another owner's public bucket before any permission check runs — the
claimed "write check passes on both adapters" fails for the S3 adapter. -/
theorem c2_public_bucket_access
    (md5hex : Blob → String) (storageBase : String) (s : Sys)
    (u owner : User) (bucketID fid : Int) (b : Bucket)
    (key contentType0 : String) (content : Blob) (f : DbFile) (bytes : Blob)
    (limit offset : Nat) (pre bucketName objectKey : String)
    (hb : bucketGetByID s bucketID = some b)
    (hpub : b.isPublic = true)
    (hno : u.id ≠ b.userID)
    (hkey : key ≠ "")
    (hown : owner.id = b.userID)
    (hf : fileGetByID s fid = some f)
    (hfb : f.bucketID = bucketID)
    (hdisk : diskRead s.disk f.path = some bytes)
    (hnoname : ∀ b2 ∈ s.buckets, b2.name = bucketName → b2.userID ≠ u.id)
    (hbname : bucketName ≠ "") (hkey2 : objectKey ≠ "") :
    ((uploadFile md5hex storageBase u bucketID key contentType0 content none true s).2.status
        = 200) ∧
    ((listFiles u bucketID limit offset pre s).status = 200) ∧
    ((downloadFile u bucketID fid s).status = 200 ∧
      (downloadFile u bucketID fid s).body = bytes) ∧
    ((deleteFile u bucketID fid s).2.status = 403 ∧ (deleteFile u bucketID fid s).1 = s) ∧
    ((deleteFile owner bucketID fid s).2.status = 200) ∧
    ((s3PutObject md5hex storageBase u bucketName objectKey contentType0 content
        none true s).2.status = 404 ∧
      (s3PutObject md5hex storageBase u bucketName objectKey contentType0 content
        none true s).1 = s) ∧
    ((s3GetObject u bucketName objectKey s).status = 404) ∧
    ((s3DeleteObject u bucketName objectKey s).2.status = 404 ∧
      (s3DeleteObject u bucketName objectKey s).1 = s) := by
  have hperm : ¬(b.userID ≠ u.id ∧ b.isPublic = false) := perm_pass (Or.inr hpub)
  have hnone := bucketGetByName_none s bucketName u.id hnoname
  have hnames : ¬(bucketName = "" ∨ objectKey = "") := by simp [hbname, hkey2]
  have hfbn : ¬ f.bucketID ≠ bucketID := by simp [hfb]
  refine ⟨?_, ?_, ?_, ⟨?_, ?_⟩, ?_, ⟨?_, ?_⟩, ?_, ⟨?_, ?_⟩⟩
  · simp only [uploadFile, hb]
    rw [if_neg hperm, if_neg hkey]
    cases hE : fileGetByName s bucketID key <;> simp [hE]
  · simp [listFiles, hb, hpub]
  · constructor <;> simp [downloadFile, hb, hpub, hf, hfbn, hdisk]
  · simp [deleteFile, hb, Ne.symm hno]
  · simp [deleteFile, hb, Ne.symm hno]
  · simp only [deleteFile, hb]
    rw [if_neg (by simp [hown.symm])]
    simp [hf, hfbn]
  · simp [s3PutObject, hnames, hnone]
  · simp [s3PutObject, hnames, hnone]
  · simp [s3GetObject, hnames, hnone]
  · simp [s3DeleteObject, hnames, hnone]
  · simp [s3DeleteObject, hnames, hnone]

/-- State used by the C2 witness: owner 1's public bucket id 1 named `pub`
holding one file id 5 whose bytes are on disk; actor 2 is not the owner and
owns no bucket named `pub`. -/
def sysW2 : Sys :=
  ⟨[⟨1, "pub", 1, true⟩], [⟨5, 1, "k", "p", "t", 2, "e", 1, 0, 0⟩], 6, [("p", [7, 8])], 0⟩

theorem c2_public_bucket_access_witness :
    ((uploadFile hashLen "storage" ⟨2⟩ 1 "new" "t" [1] none true sysW2).2.status = 200) ∧
      ((listFiles ⟨2⟩ 1 10 0 "" sysW2).status = 200) ∧
      ((downloadFile ⟨2⟩ 1 5 sysW2).status = 200 ∧
        (downloadFile ⟨2⟩ 1 5 sysW2).body = [7, 8]) ∧
      ((deleteFile ⟨2⟩ 1 5 sysW2).2.status = 403 ∧ (deleteFile ⟨2⟩ 1 5 sysW2).1 = sysW2) ∧
      ((deleteFile ⟨1⟩ 1 5 sysW2).2.status = 200) ∧
      ((s3PutObject hashLen "storage" ⟨2⟩ "pub" "k" "t" [1] none true sysW2).2.status = 404 ∧
        (s3PutObject hashLen "storage" ⟨2⟩ "pub" "k" "t" [1] none true sysW2).1 = sysW2) ∧
      ((s3GetObject ⟨2⟩ "pub" "k" sysW2).status = 404) ∧
      ((s3DeleteObject ⟨2⟩ "pub" "k" sysW2).2.status = 404 ∧
        (s3DeleteObject ⟨2⟩ "pub" "k" sysW2).1 = sysW2) :=
  c2_public_bucket_access hashLen "storage" sysW2 ⟨2⟩ ⟨1⟩ 1 5 ⟨1, "pub", 1, true⟩
    "new" "t" [1] ⟨5, 1, "k", "p", "t", 2, "e", 1, 0, 0⟩ [7, 8] 10 0 "" "pub" "k"
    (by decide) (by decide) (by decide) (by decide) (by decide) (by decide) (by decide)
    (by decide) (by decide) (by decide) (by decide)

/-- C3: a second successful upload to an existing (bucketID, key) updates
the existing metadata record in place: the looked-up record keeps its `id`
and `createdAt` while `etag` (the digest of the new bytes), `size`,
`contentType` and `updatedAt` are replaced; the number of records for that
key — and the total number of records — is unchanged, so no second row is
created. -/
theorem c3_overwrite_updates_in_place
    (md5hex : Blob → String) (storageBase : String) (s : Sys)
    (u : User) (bucketID : Int) (b : Bucket) (key contentType0 : String)
    (content : Blob) (e : DbFile)
    (hids : idsNodup s.files)
    (hb : bucketGetByID s bucketID = some b)
    (hperm : b.userID = u.id ∨ b.isPublic = true)
    (hkey : key ≠ "")
    (he : fileGetByName s bucketID key = some e) :
    (uploadFile md5hex storageBase u bucketID key contentType0 content
        none true s).2.status = 200 ∧
    (∃ f, fileGetByName (uploadFile md5hex storageBase u bucketID key contentType0 content
          none true s).1 bucketID key = some f ∧
        f.id = e.id ∧ f.createdAt = e.createdAt ∧
        f.etag = md5hex content ∧ f.size = (content.length : Int) ∧
        f.contentType = (if contentType0 = "" then "application/octet-stream"
          else contentType0) ∧
        f.updatedAt = s.now) ∧
    ((uploadFile md5hex storageBase u bucketID key contentType0 content
          none true s).1.files.filter
        (fun g => g.bucketID == bucketID && g.name == key)).length =
      (s.files.filter (fun g => g.bucketID == bucketID && g.name == key)).length ∧
    (uploadFile md5hex storageBase u bucketID key contentType0 content
        none true s).1.files.length = s.files.length := by
  have hpe := List.find?_some he
  simp only [Bool.and_eq_true, beq_iff_eq] at hpe
  obtain ⟨heb, hen⟩ := hpe
  have hmem := List.mem_of_find?_eq_some he
  have hr : uploadFile md5hex storageBase u bucketID key contentType0 content none true s
      = (fileUpdate { s with disk := (diskWrite s.disk
            (putPath storageBase u.id bucketID key) content) }
          ⟨e.id, bucketID, key, putPath storageBase u.id bucketID key,
            (if contentType0 = "" then "application/octet-stream" else contentType0),
            (content.length : Int), md5hex content, u.id, 0, 0⟩,
         { status := 200,
           okFile := some ⟨e.id, bucketID, key, putPath storageBase u.id bucketID key,
             (if contentType0 = "" then "application/octet-stream" else contentType0),
             (content.length : Int), md5hex content, u.id, 0, 0⟩ }) := by
    simp only [uploadFile, hb, he]
    rw [if_neg (perm_pass hperm), if_neg hkey, if_pos trivial]
  rw [hr]
  refine ⟨rfl, ?_, ?_, ?_⟩
  · refine ⟨updRow s.now
      ⟨e.id, bucketID, key, putPath storageBase u.id bucketID key,
        (if contentType0 = "" then "application/octet-stream" else contentType0),
        (content.length : Int), md5hex content, u.id, 0, 0⟩ e, ?_, ?_, ?_, ?_, ?_, ?_, ?_⟩
    · show (s.files.map (updRow s.now _)).find? _ = _
      exact find?_map_updRow s.files _ s.now _ e he hids rfl (by simp [updRow, heb])
    · simp [updRow]
    · simp [updRow]
    · simp [updRow]
    · simp [updRow]
    · simp [updRow]
    · simp [updRow]
  · show ((s.files.map (updRow s.now _)).filter _).length = _
    apply length_filter_map_updRow
    intro g hg
    by_cases hgid : g.id = e.id
    · have hge : g = e := eq_of_mem_ids hids hg hmem hgid
      subst hge
      simp [updRow, heb, hen]
    · simp [updRow, hgid]
  · simp [fileUpdate]

/-- State used by the C3 witness: owner 1's bucket id 1 already holds key
`k` as record id 4 (created at time 3); the clock is 7. -/
def sysW3 : Sys :=
  ⟨[⟨1, "b", 1, false⟩], [⟨4, 1, "k", "storage/1/1/k", "t", 1, "old", 1, 3, 3⟩], 5,
    [("storage/1/1/k", [0])], 7⟩

theorem c3_overwrite_updates_in_place_witness :
    (uploadFile hashLen "storage" ⟨1⟩ 1 "k" "t2" [1, 2, 3] none true sysW3).2.status = 200 ∧
    (∃ f, fileGetByName (uploadFile hashLen "storage" ⟨1⟩ 1 "k" "t2" [1, 2, 3]
          none true sysW3).1 1 "k" = some f ∧
        f.id = 4 ∧ f.createdAt = 3 ∧
        f.etag = hashLen [1, 2, 3] ∧ f.size = (3 : Int) ∧
        f.contentType = (if "t2" = "" then "application/octet-stream" else "t2") ∧
        f.updatedAt = 7) ∧
    ((uploadFile hashLen "storage" ⟨1⟩ 1 "k" "t2" [1, 2, 3] none true sysW3).1.files.filter
        (fun g => g.bucketID == 1 && g.name == "k")).length =
      (sysW3.files.filter (fun g => g.bucketID == 1 && g.name == "k")).length ∧
    (uploadFile hashLen "storage" ⟨1⟩ 1 "k" "t2" [1, 2, 3]
        none true sysW3).1.files.length = sysW3.files.length :=
  c3_overwrite_updates_in_place hashLen "storage" sysW3 ⟨1⟩ 1 ⟨1, "b", 1, false⟩ "k" "t2"
    [1, 2, 3] ⟨4, 1, "k", "storage/1/1/k", "t", 1, "old", 1, 3, 3⟩
    (by simp [idsNodup, sysW3]) (by decide) (by decide) (by decide) (by decide)

/-- C4: uploading bytes and then downloading the same object through the
same adapter returns exactly those bytes, and the reported ETag is the
digest of the exact byte stream written — for *every* digest function
`md5hex`, the stored etag and the response header equal `md5hex content`
while the bytes on disk and the download body equal `content`; the header
is unquoted on the native adapter and quoted on the S3 adapter.  Proved for
first writes and overwrites alike (the lookup of the existing record is
case-split inside the proof). -/
theorem c4_round_trip
    (md5hex : Blob → String) (storageBase : String) (s : Sys)
    (u : User) (bucketID : Int) (b : Bucket) (key contentType0 : String)
    (content : Blob)
    (u2 : User) (bucketName objectKey contentType2 : String) (content2 : Blob)
    (b2 : Bucket)
    (hids : idsNodup s.files)
    (hb : bucketGetByID s bucketID = some b)
    (hperm : b.userID = u.id ∨ b.isPublic = true)
    (hkey : key ≠ "")
    (hfreshID : ∀ g ∈ s.files, g.id ≠ s.nextFileID)
    (hbn : bucketGetByName s bucketName u2.id = some b2)
    (hbname : bucketName ≠ "") (hkey2 : objectKey ≠ "") :
    ((uploadFile md5hex storageBase u bucketID key contentType0 content
        none true s).2.status = 200 ∧
     ∃ f, (uploadFile md5hex storageBase u bucketID key contentType0 content
            none true s).2.okFile = some f ∧
       f.etag = md5hex content ∧
       (downloadFile u bucketID f.id (uploadFile md5hex storageBase u bucketID key
          contentType0 content none true s).1).status = 200 ∧
       (downloadFile u bucketID f.id (uploadFile md5hex storageBase u bucketID key
          contentType0 content none true s).1).body = content ∧
       (downloadFile u bucketID f.id (uploadFile md5hex storageBase u bucketID key
          contentType0 content none true s).1).etagHeader = some (md5hex content)) ∧
    ((s3PutObject md5hex storageBase u2 bucketName objectKey contentType2 content2
        none true s).2.status = 200 ∧
     (s3PutObject md5hex storageBase u2 bucketName objectKey contentType2 content2
        none true s).2.etagHeader = some ("\"" ++ md5hex content2 ++ "\"") ∧
     (s3GetObject u2 bucketName objectKey (s3PutObject md5hex storageBase u2 bucketName
        objectKey contentType2 content2 none true s).1).status = 200 ∧
     (s3GetObject u2 bucketName objectKey (s3PutObject md5hex storageBase u2 bucketName
        objectKey contentType2 content2 none true s).1).body = content2 ∧
     (s3GetObject u2 bucketName objectKey (s3PutObject md5hex storageBase u2 bucketName
        objectKey contentType2 content2 none true s).1).etagHeader
          = some ("\"" ++ md5hex content2 ++ "\"")) := by
  have hbperm := perm_pass hperm
  have hb2own : b2.userID = u2.id := by
    have := List.find?_some hbn
    simp only [Bool.and_eq_true, beq_iff_eq] at this
    exact this.2
  have hp2 : ¬(b2.userID ≠ u2.id ∧ b2.isPublic = false) := by
    rintro ⟨h1, _⟩
    exact h1 hb2own
  have hnames : ¬(bucketName = "" ∨ objectKey = "") := by simp [hbname, hkey2]
  have hb' : s.buckets.find? (fun bb => bb.id == bucketID) = some b := hb
  have hbn' : s.buckets.find? (fun bb => bb.name == bucketName && bb.userID == u2.id)
      = some b2 := hbn
  have hfreshN : s.files.find? (fun g => g.id == s.nextFileID) = none := by
    apply List.find?_eq_none.mpr
    intro g hg
    simp [hfreshID g hg]
  constructor
  · -- native round trip: fresh write or overwrite
    cases hE : fileGetByName s bucketID key with
    | none =>
      have hrN : uploadFile md5hex storageBase u bucketID key contentType0 content none true s
          = ({ buckets := s.buckets,
               files := (s.files ++
                 [⟨s.nextFileID, bucketID, key, putPath storageBase u.id bucketID key,
                   (if contentType0 = "" then "application/octet-stream" else contentType0),
                   (content.length : Int), md5hex content, u.id, s.now, s.now⟩]),
               nextFileID := s.nextFileID + 1,
               disk := (diskWrite s.disk (putPath storageBase u.id bucketID key) content),
               now := s.now },
             { status := 200,
               okFile := some ⟨s.nextFileID, bucketID, key,
                 putPath storageBase u.id bucketID key,
                 (if contentType0 = "" then "application/octet-stream" else contentType0),
                 (content.length : Int), md5hex content, u.id, 0, 0⟩ }) := by
        simp only [uploadFile, hb, hE, fileCreate]
        rw [if_neg hbperm, if_neg hkey, if_pos trivial]
      rw [hrN]
      refine ⟨rfl, ⟨s.nextFileID, bucketID, key, putPath storageBase u.id bucketID key,
        (if contentType0 = "" then "application/octet-stream" else contentType0),
        (content.length : Int), md5hex content, u.id, 0, 0⟩, rfl, rfl, ?_, ?_, ?_⟩ <;>
      · have hfind : (s.files ++
            [(⟨s.nextFileID, bucketID, key, putPath storageBase u.id bucketID key,
              (if contentType0 = "" then "application/octet-stream" else contentType0),
              (content.length : Int), md5hex content, u.id, s.now, s.now⟩ : DbFile)]).find?
              (fun g => g.id == s.nextFileID)
            = some ⟨s.nextFileID, bucketID, key, putPath storageBase u.id bucketID key,
              (if contentType0 = "" then "application/octet-stream" else contentType0),
              (content.length : Int), md5hex content, u.id, s.now, s.now⟩ := by
          rw [find?_append_single _ _ _ hfreshN]
          simp
        simp only [downloadFile, bucketGetByID, fileGetByID, hb', hfind]
        rw [if_neg hbperm]
        simp [diskRead_diskWrite_self]
    | some e =>
      have hpeE := List.find?_some hE
      simp only [Bool.and_eq_true, beq_iff_eq] at hpeE
      obtain ⟨heb, hen⟩ := hpeE
      have hmem := List.mem_of_find?_eq_some hE
      have hrU : uploadFile md5hex storageBase u bucketID key contentType0 content none true s
          = (fileUpdate { s with disk := (diskWrite s.disk
                (putPath storageBase u.id bucketID key) content) }
              ⟨e.id, bucketID, key, putPath storageBase u.id bucketID key,
                (if contentType0 = "" then "application/octet-stream" else contentType0),
                (content.length : Int), md5hex content, u.id, 0, 0⟩,
             { status := 200,
               okFile := some ⟨e.id, bucketID, key, putPath storageBase u.id bucketID key,
                 (if contentType0 = "" then "application/octet-stream" else contentType0),
                 (content.length : Int), md5hex content, u.id, 0, 0⟩ }) := by
        simp only [uploadFile, hb, hE]
        rw [if_neg hbperm, if_neg hkey, if_pos trivial]
      rw [hrU]
      refine ⟨rfl, ⟨e.id, bucketID, key, putPath storageBase u.id bucketID key,
        (if contentType0 = "" then "application/octet-stream" else contentType0),
        (content.length : Int), md5hex content, u.id, 0, 0⟩, rfl, rfl, ?_, ?_, ?_⟩ <;>
      · have hfindid : s.files.find? (fun g => g.id == e.id) = some e :=
          find?_id_of_mem hids hmem
        have hfind : (s.files.map (updRow s.now
              ⟨e.id, bucketID, key, putPath storageBase u.id bucketID key,
                (if contentType0 = "" then "application/octet-stream" else contentType0),
                (content.length : Int), md5hex content, u.id, 0, 0⟩)).find?
              (fun g => g.id == e.id)
            = some (updRow s.now
              ⟨e.id, bucketID, key, putPath storageBase u.id bucketID key,
                (if contentType0 = "" then "application/octet-stream" else contentType0),
                (content.length : Int), md5hex content, u.id, 0, 0⟩ e) :=
          find?_map_updRow s.files _ s.now _ e hfindid hids rfl (by simp [updRow])
        simp only [downloadFile, bucketGetByID, fileGetByID, fileUpdate, hb', hfind]
        rw [if_neg hbperm]
        rw [if_neg (show ¬((updRow s.now
          ⟨e.id, bucketID, key, putPath storageBase u.id bucketID key,
            (if contentType0 = "" then "application/octet-stream" else contentType0),
            (content.length : Int), md5hex content, u.id, 0, 0⟩ e).bucketID ≠ bucketID)
          from by simp [updRow, heb])]
        simp [updRow, diskRead_diskWrite_self]
  · -- S3 round trip: fresh write or overwrite
    cases hE2 : fileGetByName s b2.id objectKey with
    | none =>
      have hE2' : s.files.find? (fun g => g.bucketID == b2.id && g.name == objectKey)
          = none := hE2
      have hrS : s3PutObject md5hex storageBase u2 bucketName objectKey contentType2 content2
          none true s
          = ({ buckets := s.buckets,
               files := (s.files ++
                 [⟨s.nextFileID, b2.id, objectKey, putPath storageBase u2.id b2.id objectKey,
                   (if contentType2 = "" then "application/octet-stream" else contentType2),
                   (content2.length : Int), md5hex content2, u2.id, s.now, s.now⟩]),
               nextFileID := s.nextFileID + 1,
               disk := (diskWrite s.disk (putPath storageBase u2.id b2.id objectKey) content2),
               now := s.now },
             { status := 200, etagHeader := some ("\"" ++ md5hex content2 ++ "\"") }) := by
        simp only [s3PutObject, hbn, fileCreate, fileGetByName]
        rw [if_neg hnames, if_neg hp2]
        simp only [hE2']
        rw [if_pos trivial]
      rw [hrS]
      refine ⟨rfl, rfl, ?_, ?_, ?_⟩ <;>
      · have hfind2 : (s.files ++
            [(⟨s.nextFileID, b2.id, objectKey, putPath storageBase u2.id b2.id objectKey,
              (if contentType2 = "" then "application/octet-stream" else contentType2),
              (content2.length : Int), md5hex content2, u2.id, s.now, s.now⟩ : DbFile)]).find?
              (fun g => g.bucketID == b2.id && g.name == objectKey)
            = some ⟨s.nextFileID, b2.id, objectKey, putPath storageBase u2.id b2.id objectKey,
              (if contentType2 = "" then "application/octet-stream" else contentType2),
              (content2.length : Int), md5hex content2, u2.id, s.now, s.now⟩ := by
          rw [find?_append_single _ _ _ hE2']
          simp
        simp only [s3GetObject, bucketGetByName, fileGetByName, hbn', hfind2]
        rw [if_neg hnames, if_neg hp2]
        simp [diskRead_diskWrite_self]
    | some e2 =>
      have hpe2 := List.find?_some hE2
      simp only [Bool.and_eq_true, beq_iff_eq] at hpe2
      obtain ⟨heb2, hen2⟩ := hpe2
      have hE2' : s.files.find? (fun g => g.bucketID == b2.id && g.name == objectKey)
          = some e2 := hE2
      have hrS2 : s3PutObject md5hex storageBase u2 bucketName objectKey contentType2 content2
          none true s
          = (fileUpdate { s with disk := (diskWrite s.disk
                (putPath storageBase u2.id b2.id objectKey) content2) }
              ⟨e2.id, b2.id, objectKey, putPath storageBase u2.id b2.id objectKey,
                (if contentType2 = "" then "application/octet-stream" else contentType2),
                (content2.length : Int), md5hex content2, u2.id, 0, 0⟩,
             { status := 200, etagHeader := some ("\"" ++ md5hex content2 ++ "\"") }) := by
        simp only [s3PutObject, hbn, fileGetByName]
        rw [if_neg hnames, if_neg hp2]
        simp only [hE2']
        rw [if_pos trivial]
      rw [hrS2]
      refine ⟨rfl, rfl, ?_, ?_, ?_⟩ <;>
      · have hfind2 : (s.files.map (updRow s.now
              ⟨e2.id, b2.id, objectKey, putPath storageBase u2.id b2.id objectKey,
                (if contentType2 = "" then "application/octet-stream" else contentType2),
                (content2.length : Int), md5hex content2, u2.id, 0, 0⟩)).find?
              (fun g => g.bucketID == b2.id && g.name == objectKey)
            = some (updRow s.now
              ⟨e2.id, b2.id, objectKey, putPath storageBase u2.id b2.id objectKey,
                (if contentType2 = "" then "application/octet-stream" else contentType2),
                (content2.length : Int), md5hex content2, u2.id, 0, 0⟩ e2) :=
          find?_map_updRow s.files _ s.now _ e2 hE2' hids rfl (by simp [updRow, heb2])
        simp only [s3GetObject, bucketGetByName, fileGetByName, fileUpdate, hbn', hfind2]
        rw [if_neg hnames, if_neg hp2]
        simp [updRow, diskRead_diskWrite_self]

/-- State used by the C4 witness: owner 1's empty bucket id 1 named `b`. -/
def sysW4 : Sys := ⟨[⟨1, "b", 1, false⟩], [], 1, [], 0⟩

theorem c4_round_trip_witness :
    ((uploadFile hashLen "storage" ⟨1⟩ 1 "k" "t" [9, 8] none true sysW4).2.status = 200 ∧
     ∃ f, (uploadFile hashLen "storage" ⟨1⟩ 1 "k" "t" [9, 8]
            none true sysW4).2.okFile = some f ∧
       f.etag = hashLen [9, 8] ∧
       (downloadFile ⟨1⟩ 1 f.id (uploadFile hashLen "storage" ⟨1⟩ 1 "k" "t" [9, 8]
          none true sysW4).1).status = 200 ∧
       (downloadFile ⟨1⟩ 1 f.id (uploadFile hashLen "storage" ⟨1⟩ 1 "k" "t" [9, 8]
          none true sysW4).1).body = [9, 8] ∧
       (downloadFile ⟨1⟩ 1 f.id (uploadFile hashLen "storage" ⟨1⟩ 1 "k" "t" [9, 8]
          none true sysW4).1).etagHeader = some (hashLen [9, 8])) ∧
    ((s3PutObject hashLen "storage" ⟨1⟩ "b" "k2" "t" [5] none true sysW4).2.status = 200 ∧
     (s3PutObject hashLen "storage" ⟨1⟩ "b" "k2" "t" [5]
        none true sysW4).2.etagHeader = some ("\"" ++ hashLen [5] ++ "\"") ∧
     (s3GetObject ⟨1⟩ "b" "k2" (s3PutObject hashLen "storage" ⟨1⟩ "b" "k2" "t" [5]
        none true sysW4).1).status = 200 ∧
     (s3GetObject ⟨1⟩ "b" "k2" (s3PutObject hashLen "storage" ⟨1⟩ "b" "k2" "t" [5]
        none true sysW4).1).body = [5] ∧
     (s3GetObject ⟨1⟩ "b" "k2" (s3PutObject hashLen "storage" ⟨1⟩ "b" "k2" "t" [5]
        none true sysW4).1).etagHeader = some ("\"" ++ hashLen [5] ++ "\"")) :=
  c4_round_trip hashLen "storage" sysW4 ⟨1⟩ 1 ⟨1, "b", 1, false⟩ "k" "t" [9, 8]
    ⟨1⟩ "b" "k2" "t" [5] ⟨1, "b", 1, false⟩
    (by simp [idsNodup, sysW4]) (by decide) (by decide) (by decide) (by decide)
    (by decide) (by decide) (by decide)

/-- C10: a successful upload stores the content under
`storageBase/<uploading actor id>/<bucketID>/<key>` — keyed by the
uploader, not the bucket owner.  When actor `B` overwrites a key of owner
`A`'s public bucket that `A` last wrote, the single metadata record for the
key keeps its id but its path moves to `B`'s directory (while the row's
`user_id` column is not updated), the file under `A`'s directory stays on
disk with its old bytes, and no metadata row references it any more. -/
theorem c10_uploader_keyed_path_orphan
    (md5hex : Blob → String) (storageBase : String) (s : Sys)
    (A B : User) (bucketID : Int) (b : Bucket) (key contentType0 : String)
    (blobA blobB : Blob) (e : DbFile)
    (hids : idsNodup s.files)
    (hb : bucketGetByID s bucketID = some b)
    (hpub : b.isPublic = true)
    (hkey : key ≠ "")
    (hpathB : putPath storageBase B.id bucketID key
        = storageBase ++ "/" ++ toString B.id ++ "/" ++ toString bucketID ++ "/" ++ key)
    (hne : storageBase ++ "/" ++ toString A.id ++ "/" ++ toString bucketID ++ "/" ++ key
        ≠ storageBase ++ "/" ++ toString B.id ++ "/" ++ toString bucketID ++ "/" ++ key)
    (he : fileGetByName s bucketID key = some e)
    (hepath : e.path
        = storageBase ++ "/" ++ toString A.id ++ "/" ++ toString bucketID ++ "/" ++ key)
    (hdiskA : diskRead s.disk e.path = some blobA)
    (honly : ∀ g ∈ s.files, g.path = e.path → g.id = e.id) :
    (uploadFile md5hex storageBase B bucketID key contentType0 blobB
        none true s).2.status = 200 ∧
    (∃ f, fileGetByName (uploadFile md5hex storageBase B bucketID key contentType0 blobB
          none true s).1 bucketID key = some f ∧
        f.id = e.id ∧
        f.path = storageBase ++ "/" ++ toString B.id ++ "/" ++ toString bucketID ++ "/" ++ key ∧
        f.userID = e.userID) ∧
    diskRead (uploadFile md5hex storageBase B bucketID key contentType0 blobB
        none true s).1.disk
      (storageBase ++ "/" ++ toString A.id ++ "/" ++ toString bucketID ++ "/" ++ key)
      = some blobA ∧
    (∀ g ∈ (uploadFile md5hex storageBase B bucketID key contentType0 blobB
        none true s).1.files,
      g.path ≠ storageBase ++ "/" ++ toString A.id ++ "/" ++ toString bucketID ++ "/" ++ key) ∧
    ((uploadFile md5hex storageBase B bucketID key contentType0 blobB
        none true s).1.files.filter
      (fun g => g.bucketID == bucketID && g.name == key)).length =
      (s.files.filter (fun g => g.bucketID == bucketID && g.name == key)).length := by
  have hperm : ¬(b.userID ≠ B.id ∧ b.isPublic = false) := perm_pass (Or.inr hpub)
  have hpe := List.find?_some he
  simp only [Bool.and_eq_true, beq_iff_eq] at hpe
  obtain ⟨heb, hen⟩ := hpe
  have hmem := List.mem_of_find?_eq_some he
  have hr : uploadFile md5hex storageBase B bucketID key contentType0 blobB none true s
      = (fileUpdate { s with disk := (diskWrite s.disk
            (putPath storageBase B.id bucketID key) blobB) }
          ⟨e.id, bucketID, key, putPath storageBase B.id bucketID key,
            (if contentType0 = "" then "application/octet-stream" else contentType0),
            (blobB.length : Int), md5hex blobB, B.id, 0, 0⟩,
         { status := 200,
           okFile := some ⟨e.id, bucketID, key, putPath storageBase B.id bucketID key,
             (if contentType0 = "" then "application/octet-stream" else contentType0),
             (blobB.length : Int), md5hex blobB, B.id, 0, 0⟩ }) := by
    simp only [uploadFile, hb, he]
    rw [if_neg hperm, if_neg hkey, if_pos trivial]
  rw [hr]
  refine ⟨rfl, ?_, ?_, ?_, ?_⟩
  · refine ⟨updRow s.now
      ⟨e.id, bucketID, key, putPath storageBase B.id bucketID key,
        (if contentType0 = "" then "application/octet-stream" else contentType0),
        (blobB.length : Int), md5hex blobB, B.id, 0, 0⟩ e, ?_, ?_, ?_, ?_⟩
    · show (s.files.map (updRow s.now _)).find? _ = _
      exact find?_map_updRow s.files _ s.now _ e he hids rfl (by simp [updRow, heb])
    · simp [updRow]
    · simp [updRow, hpathB]
    · simp [updRow]
  · show diskRead (diskWrite s.disk (putPath storageBase B.id bucketID key) blobB) _ = _
    rw [diskRead_diskWrite_other]
    · rw [← hepath]
      exact hdiskA
    · rw [hpathB]
      exact hne
  · intro g hg
    show g.path ≠ _
    obtain ⟨g0, hg0, rfl⟩ := List.mem_map.mp hg
    by_cases hid : g0.id = e.id
    · have hpath : (updRow s.now
          ⟨e.id, bucketID, key, putPath storageBase B.id bucketID key,
            (if contentType0 = "" then "application/octet-stream" else contentType0),
            (blobB.length : Int), md5hex blobB, B.id, 0, 0⟩ g0).path
          = putPath storageBase B.id bucketID key := by
        simp [updRow, hid]
      rw [hpath, hpathB]
      exact Ne.symm hne
    · have hkeep : updRow s.now
          ⟨e.id, bucketID, key, putPath storageBase B.id bucketID key,
            (if contentType0 = "" then "application/octet-stream" else contentType0),
            (blobB.length : Int), md5hex blobB, B.id, 0, 0⟩ g0 = g0 := by
        simp [updRow, hid]
      rw [hkeep]
      intro hcontra
      apply hid
      apply honly g0 hg0
      rw [hepath]
      exact hcontra
  · show ((s.files.map (updRow s.now _)).filter _).length = _
    apply length_filter_map_updRow
    intro g hg
    by_cases hgid : g.id = e.id
    · have hge : g = e := eq_of_mem_ids hids hg hmem hgid
      subst hge
      simp [updRow, heb, hen]
    · simp [updRow, hgid]

/-- State used by the C10 witness: actor 1 owns public bucket id 1 and last
wrote key `k` (record id 4, path `storage/1/1/k`, bytes `[1]`); actor 2
overwrites it. -/
def sysW10 : Sys :=
  ⟨[⟨1, "pub", 1, true⟩], [⟨4, 1, "k", "storage/1/1/k", "t", 1, "ha", 1, 3, 3⟩], 5,
    [("storage/1/1/k", [1])], 9⟩

theorem c10_uploader_keyed_path_orphan_witness :
    (uploadFile hashLen "storage" ⟨2⟩ 1 "k" "t" [2, 2] none true sysW10).2.status = 200 ∧
    (∃ f, fileGetByName (uploadFile hashLen "storage" ⟨2⟩ 1 "k" "t" [2, 2]
          none true sysW10).1 1 "k" = some f ∧
        f.id = 4 ∧
        f.path = "storage" ++ "/" ++ toString (2 : Int) ++ "/" ++ toString (1 : Int) ++ "/" ++ "k" ∧
        f.userID = 1) ∧
    diskRead (uploadFile hashLen "storage" ⟨2⟩ 1 "k" "t" [2, 2] none true sysW10).1.disk
      ("storage" ++ "/" ++ toString (1 : Int) ++ "/" ++ toString (1 : Int) ++ "/" ++ "k")
      = some [1] ∧
    ((uploadFile hashLen "storage" ⟨2⟩ 1 "k" "t" [2, 2] none true sysW10).1.files.filter
      (fun g => g.bucketID == 1 && g.name == "k")).length =
      (sysW10.files.filter (fun g => g.bucketID == 1 && g.name == "k")).length := by
  have h := c10_uploader_keyed_path_orphan hashLen "storage" sysW10 ⟨1⟩ ⟨2⟩ 1
    ⟨1, "pub", 1, true⟩ "k" "t" [1] [2, 2] ⟨4, 1, "k", "storage/1/1/k", "t", 1, "ha", 1, 3, 3⟩
    (by simp [idsNodup, sysW10]) (by decide) (by decide) (by decide) (by decide) (by decide)
    (by decide) (by decide) (by decide) (by decide)
  exact ⟨h.1, h.2.1, h.2.2.1, h.2.2.2.2⟩

/-! ### `LIKE` on wildcard-free patterns is the literal prefix test -/

theorem likeMatchFuel_pct (s : List Char) :
    ∀ fuel, s.length + 2 ≤ fuel → likeMatchFuel fuel ['%'] s = true := by
  induction s with
  | nil =>
    intro fuel h
    obtain ⟨f, rfl⟩ : ∃ f, fuel = f + 2 := ⟨fuel - 2, by omega⟩
    simp [likeMatchFuel]
  | cons c s2 ih =>
    intro fuel h
    obtain ⟨f, rfl⟩ : ∃ f, fuel = f + 1 := ⟨fuel - 1, by omega⟩
    have hf : s2.length + 2 ≤ f := by
      simp only [List.length_cons] at h
      omega
    simp [likeMatchFuel, ih f hf]

theorem likeMatchFuel_lit (p : List Char) :
    (∀ c ∈ p, ¬ c = '%' ∧ ¬ c = '_') →
    ∀ s fuel, p.length + s.length + 2 ≤ fuel →
      likeMatchFuel fuel (p ++ ['%']) s = isPreOf p s := by
  induction p with
  | nil =>
    intro _ s fuel h
    have : s.length + 2 ≤ fuel := by simpa using h
    simp [isPreOf, likeMatchFuel_pct s fuel this]
  | cons a p2 ih =>
    intro hp s fuel h
    obtain ⟨f, rfl⟩ : ∃ f, fuel = f + 1 := ⟨fuel - 1, by omega⟩
    obtain ⟨ha1, ha2⟩ := hp a (by simp)
    have hp2 : ∀ c ∈ p2, ¬ c = '%' ∧ ¬ c = '_' := fun c hc => hp c (by simp [hc])
    cases s with
    | nil => simp [likeMatchFuel, isPreOf, ha1, ha2]
    | cons c s2 =>
      have hf : p2.length + s2.length + 2 ≤ f := by
        simp only [List.length_cons] at h
        omega
      simp [likeMatchFuel, isPreOf, ha1, ha2, ih hp2 s2 f hf]

/-- On a pattern free of the `LIKE` wildcards `%` and `_`, the repository's
`name LIKE pattern || '%'` test is exactly the literal left-anchored prefix
test. -/
theorem likePreMatch_eq_startsWithLit (pre name : String)
    (hp : ∀ c ∈ pre.data, ¬ c = '%' ∧ ¬ c = '_') :
    likePreMatch pre name = startsWithLit pre name := by
  unfold likePreMatch startsWithLit likeMatch
  apply likeMatchFuel_lit pre.data hp name.data
  simp only [List.length_append, List.length_cons, List.length_nil]
  omega

/-- C6 (amended): `ListByPrefix` filters with SQL `LIKE pre || '%'` on the
raw pattern, so `%`/`_` in the pattern act as wildcards (see the
counterexample).  For a pattern free of those wildcard characters the
claim holds: the page returned is exactly the bucket's records whose key
literally starts with the pattern, ordered by creation time descending
(then windowed by offset/limit), and every returned record belongs to the
bucket and starts with the pattern. -/
theorem c6_list_by_pre_literal
    (s : Sys) (bucketID : Int) (pre : String) (limit offset : Nat)
    (hp : ∀ c ∈ pre.data, ¬ c = '%' ∧ ¬ c = '_') :
    fileListByPre s bucketID pre limit offset
      = ((sortDesc (s.files.filter
          (fun f => f.bucketID == bucketID && startsWithLit pre f.name))).drop
            offset).take limit ∧
    (∀ f ∈ fileListByPre s bucketID pre limit offset,
      f.bucketID = bucketID ∧ startsWithLit pre f.name = true ∧ f ∈ s.files) ∧
    (fileListByPre s bucketID pre limit offset).Pairwise
      (fun a c => c.createdAt ≤ a.createdAt) := by
  have hfeq : s.files.filter (fun f => f.bucketID == bucketID && likePreMatch pre f.name)
      = s.files.filter (fun f => f.bucketID == bucketID && startsWithLit pre f.name) := by
    apply List.filter_congr
    intro f _
    rw [likePreMatch_eq_startsWithLit pre f.name hp]
  have heq : fileListByPre s bucketID pre limit offset
      = ((sortDesc (s.files.filter
          (fun f => f.bucketID == bucketID && startsWithLit pre f.name))).drop
            offset).take limit := by
    unfold fileListByPre
    rw [hfeq]
  refine ⟨heq, ?_, ?_⟩
  · intro f hf
    rw [heq] at hf
    have hf2 : f ∈ sortDesc (s.files.filter
        (fun g => g.bucketID == bucketID && startsWithLit pre g.name)) :=
      List.mem_of_mem_drop (List.mem_of_mem_take hf)
    have hf3 := mem_sortDesc.mp hf2
    have hf4 := List.mem_filter.mp hf3
    have hf5 := hf4.2
    simp only [Bool.and_eq_true, beq_iff_eq] at hf5
    exact ⟨hf5.1, hf5.2, hf4.1⟩
  · rw [heq]
    exact List.Pairwise.sublist
      ((List.take_sublist _ _).trans (List.drop_sublist _ _)) (pairwise_sortDesc _)

/-- State used by the C6 witness: bucket 1 holds keys `ab` (created at 5)
and `az` (created at 2) and `zz`; pattern `a` is wildcard-free. -/
def sysW6 : Sys :=
  ⟨[], [⟨1, 1, "ab", "p1", "t", 1, "e", 1, 5, 5⟩, ⟨2, 1, "az", "p2", "t", 1, "e", 1, 2, 2⟩,
    ⟨3, 1, "zz", "p3", "t", 1, "e", 1, 9, 9⟩], 4, [], 0⟩

theorem c6_list_by_pre_literal_witness :
    fileListByPre sysW6 1 "a" 50 0
      = ((sortDesc (sysW6.files.filter
          (fun f => f.bucketID == 1 && startsWithLit "a" f.name))).drop 0).take 50 ∧
    (fileListByPre sysW6 1 "a" 50 0).Pairwise (fun a c => c.createdAt ≤ a.createdAt) := by
  have h := c6_list_by_pre_literal sysW6 1 "a" 50 0 (by decide)
  exact ⟨h.1, h.2.2⟩

end Tut
